import Mathlib

/-!
Verification development for the stac_harvester module
(src/stac_harvester/harvester.py).

The development shallowly embeds the link-rewriting transform
(update_links), the static publish path (post_static, run), the API input
reader (get_api, as the interleaving it produces in run), and the API
publish path (post_api, post_api_colletion, post_api_item).

Conventions of the embedding:

* Python strings are Lean String; Python str.replace and str.startswith are
  embedded as pyReplace and pyStartsWith below (str.replace replaces every
  non-overlapping occurrence, scanning left to right).
* A pystac Link is a pair of a relation string and a target; the target is
  either an href string or a reference to an in-memory object.  The only
  object targets the harvester ever installs are self.output_catalog
  (ObjRef.root) and self.parent (ObjRef.pub n, the n-th collection the run
  has published).  Nodes reaching update_links always carry string targets,
  because both call sites (harvester.py lines 129 and 136) first rebuild the
  node with Collection.from_dict / Item.from_dict of to_dict, which
  serializes every link to its href string; Link.hrefD resolves an object
  target to "" only in corners unreachable in the modelled runs.
* Exceptions raised by the Python runtime (TypeError, AttributeError) are
  embedded as Except.error values of type PyError.
-/

namespace StacHarvester

/-- Python str.startswith: the pattern is a list prefix of the string. -/
def pyStartsWith (s p : String) : Bool :=
  p.data.isPrefixOf s.data

/-- Occurrence of the nonempty pattern p :: pt as a contiguous sublist of s. -/
def hasSubList (p : Char) (pt : List Char) : List Char → Bool
  | [] => false
  | c :: rest => (p :: pt).isPrefixOf (c :: rest) || hasSubList p pt rest

/-- Occurrence of pat as a substring of s (Python membership pat in s). -/
def hasSubStr (pat s : String) : Bool :=
  match pat.data with
  | [] => true
  | p :: pt => hasSubList p pt s.data

/-- Worker for Python str.replace with nonempty pattern p :: pt: scan left to
right, replacing each non-overlapping occurrence.  The fuel argument only
bounds the recursion; any fuel at least the length of the scanned list gives
the replacement semantics, and the run-out-of-fuel branch is never reached
when pyReplace below supplies the length as fuel. -/
def replaceAux (p : Char) (pt rep : List Char) : Nat → List Char → List Char
  | _, [] => []
  | 0, s => s
  | fuel + 1, c :: rest =>
    if (p :: pt).isPrefixOf (c :: rest) then
      rep ++ replaceAux p pt rep fuel (rest.drop pt.length)
    else
      c :: replaceAux p pt rep fuel rest

/-- Python str.replace on character lists: every non-overlapping occurrence
of pat in s is replaced by rep, scanning left to right; an empty pattern
inserts rep at every character boundary, matching CPython. -/
def pyReplaceL (s pat rep : List Char) : List Char :=
  match pat with
  | [] => rep ++ s.flatMap (fun c => c :: rep)
  | p :: pt => replaceAux p pt rep s.length s

/-- Python str.replace. -/
def pyReplace (s pat rep : String) : String :=
  ⟨pyReplaceL s.data pat.data rep.data⟩

/-- Reference to an in-memory pystac object installed as a link target by
update_links: either self.output_catalog (the destination root catalog) or
self.parent, identified by its position in the list of collections published
so far during the run. -/
inductive ObjRef where
  | root : ObjRef
  | pub : Nat → ObjRef
deriving DecidableEq

/-- A pystac Link target: an href string, or an in-memory object. -/
inductive LinkTarget where
  | str : String → LinkTarget
  | obj : ObjRef → LinkTarget
deriving DecidableEq

/-- A pystac Link: relation and target.  Assigning link.target in the source
replaces the target and leaves the relation unchanged. -/
structure Link where
  rel : String
  target : LinkTarget
deriving DecidableEq

/-- pystac Link.href: a string target is the href itself.  Object targets are
resolved to "" here; no node reaching update_links carries an object target
(see the module docstring), so no theorem below rests on that default. -/
def Link.hrefD : Link → String
  | ⟨_, LinkTarget.str s⟩ => s
  | ⟨_, LinkTarget.obj _⟩ => ""

/-- A STAC object as the harvester sees it: its STAC_OBJECT_TYPE string
("Collection" for collections, "Feature" for items, "Catalog" for catalogs)
and its links.  The rest of the metadata body is opaque to the harvester and
not modelled. -/
structure StacNode where
  objType : String
  links : List Link
deriving DecidableEq

/-- The suffix update_links appends to a rewritten self link, by node type
(harvester.py lines 84-99). -/
def sfxOf (objType : String) : String :=
  if objType = "Collection" then "/collection.json" else ".json"

/-- Body of the update_links loop for one link whose href passed the
startswith guard (harvester.py lines 83-111), as the mutations unfold:

* lines 83-99: if rel is self, target is assigned the href with input_root
  replaced by root_link, plus the type suffix.  The link object now has that
  string as its href.
* lines 101-111: if rel is collection or parent, target becomes self.parent;
  otherwise if rel is root, target becomes self.output_catalog; otherwise
  target is assigned link.href with input_root replaced again — for a self
  link, link.href at this point is the string just installed by the first
  assignment, so that string goes through replace a second time. -/
def rewriteMatched (input_root root_link : String) (parent : ObjRef)
    (objType : String) (link : Link) : Link :=
  let link1 :=
    if link.rel = "self" then
      if objType = "Collection" then
        { link with target := LinkTarget.str (pyReplace link.hrefD input_root root_link ++ "/collection.json") }
      else
        { link with target := LinkTarget.str (pyReplace link.hrefD input_root root_link ++ ".json") }
    else link
  if link1.rel ∈ (["collection", "parent"] : List String) then
    { link1 with target := LinkTarget.obj parent }
  else if link1.rel = "root" then
    { link1 with target := LinkTarget.obj ObjRef.root }
  else
    { link1 with target := LinkTarget.str (pyReplace link1.hrefD input_root root_link) }

/-- One iteration of the update_links loop (harvester.py lines 81-113): a
link is appended to new_links, rewritten, exactly when its href starts with
self.input_root; every other link is dropped. -/
def processLink (input_root root_link : String) (parent : ObjRef)
    (objType : String) (link : Link) : Option Link :=
  if pyStartsWith link.hrefD input_root then
    some (rewriteMatched input_root root_link parent objType link)
  else none

/-- Embeds update_links (harvester.py lines 66-116).  root_link is the
destination root catalog href with "/catalog.json" removed (lines 76-78);
the node keeps its type and its links are replaced by the rewritten
retained links, in order (lines 80-115). -/
def update_links (input_root rootHref : String) (parent : ObjRef)
    (stac_obj : StacNode) : StacNode :=
  let root_link := pyReplace rootHref "/catalog.json" ""
  { stac_obj with
    links := stac_obj.links.filterMap
      (processLink input_root root_link parent stac_obj.objType) }

/-- Embeds the to_dict / from_dict round trip at harvester.py lines 129 and
136: the rebuilt object carries the same relations, with every link target
serialized to its href string. -/
def fromDict (n : StacNode) : StacNode :=
  { n with links := n.links.map (fun l => ⟨l.rel, LinkTarget.str l.hrefD⟩) }

/-- Effect on the child of pystac Catalog.add_child as invoked at
harvester.py line 131: add_child calls child.set_root with the destination
catalog root, which removes the existing root links and appends a root link
targeting the destination catalog object (set_parent=False suppresses only
the parent link). -/
def set_root (n : StacNode) : StacNode :=
  { n with links := n.links.filter (fun l => !(l.rel == "root"))
      ++ [⟨"root", LinkTarget.obj ObjRef.root⟩] }

/-- Mutable state of a Harvester configured with a STATIC output, as touched
by the static publish path: self.parent, the collections attached under the
destination catalog (pubs, in publish order; children mirrors the child
links add_child gives the destination catalog), the files written by
pystac.write_file, both counters, and whether output_catalog.save ran. -/
structure HState where
  parent : ObjRef
  pubs : List StacNode
  children : List StacNode
  written : List StacNode
  collectionCount : Nat
  itemCount : Nat
  saved : Bool
deriving DecidableEq

/-- State of the Harvester right after __init__ with a STATIC output
(harvester.py lines 57-64): self.parent is the destination catalog and both
counters are zero. -/
def initStatic : HState :=
  { parent := ObjRef.root, pubs := [], children := [], written := [],
    collectionCount := 0, itemCount := 0, saved := false }

/-- Embeds post_static (harvester.py lines 124-140).  A Collection is
rebuilt from its dict, rewritten with the current parent, attached under the
destination root (add_child sets its root link), becomes the new
self.parent, bumps the collection counter and is written; any other node is
rebuilt, rewritten with the current parent, bumps the item counter and is
written. -/
def post_static (input_root rootHref : String) (s : HState)
    (stac_obj : StacNode) : HState :=
  if stac_obj.objType = "Collection" then
    let c := set_root (update_links input_root rootHref s.parent (fromDict stac_obj))
    { s with
      pubs := s.pubs ++ [c],
      children := s.children ++ [c],
      parent := ObjRef.pub s.pubs.length,
      collectionCount := s.collectionCount + 1,
      written := s.written ++ [c] }
  else
    let it := update_links input_root rootHref s.parent (fromDict stac_obj)
    { s with
      itemCount := s.itemCount + 1,
      written := s.written ++ [it] }

/-- One collection together with its items, as the API reader get_api
enumerates them (harvester.py lines 150-155). -/
structure Group where
  coll : StacNode
  items : List StacNode
deriving DecidableEq

/-- Posting the items of one group in order. -/
def postItems (input_root rootHref : String) (s : HState)
    (items : List StacNode) : HState :=
  items.foldl (post_static input_root rootHref) s

/-- The slice of run (harvester.py line 237-238) driven by one iteration of
the outer loop of get_api (lines 150-155): the generator assigns self.parent
to the destination catalog, yields the collection (which run posts), then
yields each item of the collection (which run posts in order).  Because the
generator is consumed synchronously, this interleaving is exact. -/
def postGroup (input_root rootHref : String) (s : HState) (g : Group) : HState :=
  postItems input_root rootHref
    (post_static input_root rootHref { s with parent := ObjRef.root } g.coll)
    g.items

/-- The full publish loop of run for an API input and a STATIC output. -/
def runGroups (input_root rootHref : String) (s : HState) :
    List Group → HState
  | [] => s
  | g :: gs => runGroups input_root rootHref (postGroup input_root rootHref s g) gs

/-- Embeds run (harvester.py lines 228-245) for an API input and a STATIC
output: post every node the reader yields, save the destination catalog,
and print one summary line built from the two counters.  Wall-clock elapsed
time is not modelled; the rendered duration is a parameter. -/
def run_static (input_root rootHref : String) (gs : List Group)
    (dur : String) : HState × String :=
  let s1 := runGroups input_root rootHref initStatic gs
  let s2 := { s1 with saved := true }
  (s2, "Harvested " ++ toString s2.collectionCount ++ " Collections and "
      ++ toString s2.itemCount ++ " Items in " ++ dur)

/-- The collection object a group contributes to pubs: its head rewritten
with parent = destination root (get_api reset self.parent just before
yielding it), then re-rooted by add_child. -/
def pubOf (input_root rootHref : String) (g : Group) : StacNode :=
  set_root (update_links input_root rootHref ObjRef.root (fromDict g.coll))

/-- The files the static run writes for the groups, in order, when the n-th
published collection so far has index n: each group writes its collection
and then its items, the items rewritten against the collection just
published. -/
def writtenFrom (input_root rootHref : String) : Nat → List Group → List StacNode
  | _, [] => []
  | n, g :: gs =>
    (pubOf input_root rootHref g ::
      g.items.map (fun it => update_links input_root rootHref (ObjRef.pub n) (fromDict it)))
      ++ writtenFrom input_root rootHref (n + 1) gs

/-- Python runtime errors raised by the API publish path. -/
inductive PyError where
  | typeError (msg : String)
  | attributeError (msg : String)
deriving DecidableEq

/-- The value bound to self.output_catalog when OUTPUT.TYPE is not STATIC
(harvester.py line 61): an in-memory client/catalog object, never a string. -/
inductive PyRef where
  | catalogObj : PyRef
deriving DecidableEq

/-- urllib.parse.urljoin applied to the base the harvester passes.  The base
is always the object bound to self.output_catalog, never a str, and
urllib.parse coerces its arguments with the guard that raises
TypeError("Cannot mix str and non-str arguments") whenever the base is not a
str while the url is. -/
def pyUrljoin : PyRef → String → Except PyError String
  | PyRef.catalogObj, _ =>
      Except.error (PyError.typeError "Cannot mix str and non-str arguments")

/-- Reading an attribute that may never have been assigned: Python raises
AttributeError when the instance has no such attribute. -/
def pyGetAttr {α : Type} (v : Option α) (name : String) : Except PyError α :=
  match v with
  | some a => Except.ok a
  | none => Except.error (PyError.attributeError
      ("'Harvester' object has no attribute '" ++ name ++ "'"))

/-- Subscripting a pystac object: pystac STAC objects define no __getitem__,
so stac_obj[key] raises TypeError for every key. -/
def pySubscript (n : StacNode) (_key : String) : Except PyError String :=
  Except.error (PyError.typeError
    ("'" ++ n.objType ++ "' object is not subscriptable"))

/-- One HTTP response as the publisher inspects it: status code, the
description field of the JSON body, and the raw text. -/
structure ApiResponse where
  status : Nat
  description : String
  text : String

/-- One HTTP request the publisher issues. -/
structure ApiRequest where
  method : String
  url : String
  payload : StacNode

/-- The outside world of the API publish path: an oracle answering each
request (method, url, payload), the log of requests issued so far, and the
lines printed to standard output. -/
structure ApiWorld where
  http : String → String → StacNode → ApiResponse
  requests : List ApiRequest
  prints : List String

/-- Attributes of a Harvester instance read by the API publish path.
self.output_catalog is the object of line 61.  self.output_root is read at
lines 187 and 201 but assigned by no operation of the class, so its value
type is uninhabited: reading it can only raise AttributeError. -/
structure ApiHarvester where
  output_catalog : PyRef
  output_root : Option Empty

/-- The Harvester attributes after __init__ for an API output: the catalog
handle object is bound, output_root is not. -/
def apiInit : ApiHarvester :=
  { output_catalog := PyRef.catalogObj, output_root := none }

/-- Embeds post_api_colletion (harvester.py lines 157-183): POST the payload
to urljoin(self.output_catalog, "collections"); on a 409 whose description
matches "Collection {id} already exists", PUT the same payload to the same
join; a failed PUT or any other non-200 status is only printed.  The first
step already raises: urljoin receives the catalog object as base. -/
def post_api_colletion (w : ApiWorld) (hv : ApiHarvester)
    (stac_obj : StacNode) : Except PyError ApiWorld := do
  let url ← pyUrljoin hv.output_catalog "collections"
  let resp := w.http "POST" url stac_obj
  let w1 : ApiWorld := { w with requests := w.requests ++ [⟨"POST", url, stac_obj⟩] }
  if resp.status = 409 then
    let idv ← pySubscript stac_obj "id"
    if resp.description = "Collection " ++ idv ++ " already exists" then do
      let url2 ← pyUrljoin hv.output_catalog "collections"
      let resp2 := w1.http "PUT" url2 stac_obj
      let w2 : ApiWorld := { w1 with requests := w1.requests ++ [⟨"PUT", url2, stac_obj⟩] }
      if resp2.status ≠ 200 then
        pure { w2 with prints := w2.prints ++
          ["FastAPI Output Collection already exists and Update failed with status code: "
            ++ toString resp2.status ++ " and response text: " ++ resp2.text] }
      else
        pure w2
    else
      pure w1
  else if resp.status ≠ 200 then
    pure { w1 with prints := w1.prints ++
      ["FastAPI Output failed with status code: " ++ toString resp.status
        ++ " and response text: " ++ resp.text] }
  else
    pure w1

/-- Embeds post_api_item (harvester.py lines 185-216).  Python evaluates the
arguments of urljoin left to right, so the read of self.output_root at line
187 runs first and raises AttributeError (no operation of the class assigns
that attribute); the remainder of the body — the item POST and the 409
fallback PUT of lines 186-216 — is unreachable for every instance, which the
uninhabited value type of output_root records. -/
def post_api_item (_w : ApiWorld) (hv : ApiHarvester)
    (_stac_obj : StacNode) : Except PyError ApiWorld := do
  let base ← pyGetAttr hv.output_root "output_root"
  nomatch base

/-- Embeds post_api (harvester.py lines 218-226): dispatch on
stac_obj["type"].  run hands post_api the pystac objects the reader yields,
and subscripting a pystac object raises TypeError, so the dispatch itself
raises before either branch. -/
def post_api (w : ApiWorld) (hv : ApiHarvester) (stac_obj : StacNode) :
    Except PyError ApiWorld := do
  let ty ← pySubscript stac_obj "type"
  if ty = "collection" then
    post_api_colletion w hv stac_obj
  else
    post_api_item w hv stac_obj

/-- Embeds run (harvester.py lines 228-245) for an API output: post every
node the reader yields, then print the summary.  self.collection_count and
self.item_count are incremented only inside post_static, so on this path
they are still zero when the summary is rendered; output_catalog.save() on
the client handle is not modelled beyond falling through, which only makes
the embedding more generous to the summary claim than the source. -/
def run_api (w : ApiWorld) (dur : String) (hv : ApiHarvester)
    (src : List StacNode) : Except PyError (ApiWorld × String) := do
  let w1 ← src.foldlM (fun acc n => post_api acc hv n) w
  pure (w1, "Harvested 0 Collections and 0 Items in " ++ dur)

/-- A concrete collection node with no links, used as a published input. -/
def collectionNodeA : StacNode := ⟨"Collection", []⟩

/-- A concrete collection node carrying one rewritable self link. -/
def linkNodeB : StacNode := ⟨"Collection", [⟨"self", LinkTarget.str "s:/B"⟩]⟩

/-- A concrete node whose root link does not start with the source root. -/
def rootCexNode : StacNode := ⟨"Collection", [⟨"root", LinkTarget.str "x:/c"⟩]⟩

/-- A concrete item node whose self href contains the source root prefix a
second time across a boundary after rewriting. -/
def selfCexNode : StacNode := ⟨"Feature", [⟨"self", LinkTarget.str "abbY"⟩]⟩

/-- A concrete group: one collection with a self link and one item with
parent, collection and root links, all under the source root. -/
def g0 : Group :=
  ⟨⟨"Collection", [⟨"self", LinkTarget.str "s:/A"⟩, ⟨"parent", LinkTarget.str "s:/r"⟩]⟩,
   [⟨"Feature", [⟨"parent", LinkTarget.str "s:/A"⟩, ⟨"collection", LinkTarget.str "s:/A"⟩,
      ⟨"self", LinkTarget.str "s:/A/i"⟩]⟩]⟩

/-- A one-group source for witnesses. -/
def gs0 : List Group := [g0]

/-- A concrete API world whose oracle always answers 200. -/
def apiWorld0 : ApiWorld :=
  { http := fun _ _ _ => ⟨200, "", ""⟩, requests := [], prints := [] }

/-! ### Facts about the embedded string primitives -/

theorem strExt {a b : String} (h : a.data = b.data) : a = b := by
  cases a
  cases b
  exact congrArg String.mk h

theorem string_data_ne_nil {a : String} (h : a ≠ "") : a.data ≠ [] := by
  intro hd
  exact h (strExt (hd.trans rfl))

theorem pyStartsWith_append (a b : String) : pyStartsWith (a ++ b) a = true := by
  unfold pyStartsWith
  rw [String.data_append]
  exact List.isPrefixOf_iff_prefix.mpr (List.prefix_append _ _)

theorem hasSubList_append_left {p : Char} {pt s : List Char} (x : List Char)
    (h : hasSubList p pt s = true) : hasSubList p pt (x ++ s) = true := by
  induction x with
  | nil => simpa using h
  | cons c xs ih =>
    rw [List.cons_append]
    simp only [hasSubList, Bool.or_eq_true]
    exact Or.inr ih

theorem hasSubList_append_right {p : Char} {pt s : List Char} (y : List Char)
    (h : hasSubList p pt s = true) : hasSubList p pt (s ++ y) = true := by
  induction s with
  | nil => simp [hasSubList] at h
  | cons c rest ih =>
    rw [List.cons_append]
    simp only [hasSubList, Bool.or_eq_true] at h ⊢
    rcases h with h | h
    · have h2 : (c :: rest) <+: c :: (rest ++ y) := by
        rw [← List.cons_append]
        exact List.prefix_append _ _
      exact Or.inl (List.isPrefixOf_iff_prefix.mpr
        ((List.isPrefixOf_iff_prefix.mp h).trans h2))
    · exact Or.inr (ih h)

theorem replaceAux_nil (p : Char) (pt rep : List Char) (fuel : Nat) :
    replaceAux p pt rep fuel [] = [] := by
  cases fuel <;> rfl

theorem replaceAux_no_occ {p : Char} {pt s : List Char} (rep : List Char)
    (h : hasSubList p pt s = false) : ∀ fuel, replaceAux p pt rep fuel s = s := by
  induction s with
  | nil => intro fuel; exact replaceAux_nil p pt rep fuel
  | cons c rest ih =>
    intro fuel
    cases fuel with
    | zero => rfl
    | succ f =>
      simp only [hasSubList, Bool.or_eq_false_iff] at h
      simp only [replaceAux, h.1, Bool.false_eq_true, if_false]
      rw [ih h.2 f]

theorem replaceAux_step (p : Char) (pt rep rest : List Char) (fuel : Nat) :
    replaceAux p pt rep (fuel + 1) (p :: (pt ++ rest)) = rep ++ replaceAux p pt rep fuel rest := by
  have hpre : (p :: pt).isPrefixOf (p :: (pt ++ rest)) = true := by
    apply List.isPrefixOf_iff_prefix.mpr
    exact List.cons_prefix_cons.mpr ⟨rfl, List.prefix_append _ _⟩
  simp only [replaceAux, hpre, if_true]
  rw [List.drop_left]

theorem pyReplaceL_no_occ {p : Char} {pt s : List Char} (rep : List Char)
    (h : hasSubList p pt s = false) : pyReplaceL s (p :: pt) rep = s := by
  simp only [pyReplaceL]
  exact replaceAux_no_occ rep h s.length

theorem pyReplaceL_prefix {p : Char} {pt rest : List Char} (rep : List Char)
    (h : hasSubList p pt rest = false) :
    pyReplaceL ((p :: pt) ++ rest) (p :: pt) rep = rep ++ rest := by
  simp only [pyReplaceL, List.cons_append, List.length_cons]
  rw [replaceAux_step]
  rw [replaceAux_no_occ rep h]

theorem hasSubStr_eq {pat : String} {p : Char} {pt : List Char} (hd : pat.data = p :: pt)
    (s : String) : hasSubStr pat s = hasSubList p pt s.data := by
  unfold hasSubStr
  rw [hd]

theorem pyReplace_prefix (input_root rest rep : String) (hne : input_root ≠ "")
    (hno : hasSubStr input_root rest = false) :
    pyReplace (input_root ++ rest) input_root rep = rep ++ rest := by
  rcases hd : input_root.data with _ | ⟨p, pt⟩
  · exact absurd hd (string_data_ne_nil hne)
  · apply strExt
    show pyReplaceL (input_root ++ rest).data input_root.data rep.data = (rep ++ rest).data
    rw [String.data_append, String.data_append, hd]
    refine pyReplaceL_prefix rep.data ?_
    rw [hasSubStr_eq hd rest] at hno
    exact hno

theorem pyReplace_no_occ (s rep : String) {pat : String} (hne : pat ≠ "")
    (hno : hasSubStr pat s = false) : pyReplace s pat rep = s := by
  rcases hd : pat.data with _ | ⟨p, pt⟩
  · exact absurd hd (string_data_ne_nil hne)
  · apply strExt
    show pyReplaceL s.data pat.data rep.data = s.data
    rw [hd]
    refine pyReplaceL_no_occ rep.data ?_
    rw [hasSubStr_eq hd s] at hno
    exact hno

theorem hasSubStr_append_mono {pat rest : String} (x y : String)
    (h : hasSubStr pat rest = true) : hasSubStr pat (x ++ rest ++ y) = true := by
  rcases hd : pat.data with _ | ⟨p, pt⟩
  · unfold hasSubStr
    rw [hd]
  · rw [hasSubStr_eq hd] at h ⊢
    rw [String.data_append, String.data_append]
    exact hasSubList_append_right y.data (hasSubList_append_left x.data h)

theorem hasSubStr_false_inner {pat rest : String} (x y : String)
    (h : hasSubStr pat (x ++ rest ++ y) = false) : hasSubStr pat rest = false := by
  cases hc : hasSubStr pat rest
  · rfl
  · rw [hasSubStr_append_mono x y hc] at h
    exact absurd h (by simp)

/-! ### Facts about the link rewriter -/

theorem rewriteMatched_rel (input_root root_link : String) (parent : ObjRef)
    (ty : String) (l : Link) :
    (rewriteMatched input_root root_link parent ty l).rel = l.rel := by
  cases l with
  | mk r t =>
    by_cases h1 : r = "self"
    · by_cases h2 : ty = "Collection" <;> simp [rewriteMatched, h1, h2]
    · simp only [rewriteMatched, Link.rel, h1, if_false]
      split
      · rfl
      · split <;> rfl

theorem update_links_links (input_root rootHref : String) (parent : ObjRef)
    (node : StacNode) :
    (update_links input_root rootHref parent node).links
      = node.links.filterMap
          (processLink input_root (pyReplace rootHref "/catalog.json" "") parent node.objType) := rfl

theorem filterMap_ite {α β : Type} (p : α → Bool) (f : α → β) (l : List α) :
    l.filterMap (fun a => if p a then some (f a) else none) = (l.filter p).map f := by
  induction l with
  | nil => rfl
  | cons a t ih =>
    by_cases h : p a <;> simp [List.filterMap_cons, List.filter_cons, h, ih]

theorem update_links_parent_target (input_root rootHref : String) (parent : ObjRef)
    (node : StacNode) :
    ∀ l ∈ (update_links input_root rootHref parent node).links,
      (l.rel = "parent" ∨ l.rel = "collection") → l.target = LinkTarget.obj parent := by
  intro l hl hrel
  rw [update_links_links] at hl
  rcases List.mem_filterMap.mp hl with ⟨a, _, hpa⟩
  unfold processLink at hpa
  by_cases hs : pyStartsWith a.hrefD input_root
  · rw [if_pos hs] at hpa
    injection hpa with hpa
    subst hpa
    rw [rewriteMatched_rel] at hrel
    cases a with
    | mk r t =>
      rcases hrel with h | h
      · have hr : r = "parent" := h
        subst hr
        simp [rewriteMatched]
      · have hr : r = "collection" := h
        subst hr
        simp [rewriteMatched]
  · rw [if_neg hs] at hpa
    exact absurd hpa (by simp)

/-! ### Claims about the link rewriter -/

/-- Claim C1, amended.  For a link with relation root, update_links behaves
as follows: when the href starts with the source root the link is retained
with its target set to the destination catalog root, regardless of the rest
of the href; when the href does not start with the source root the link is
dropped from the link set rather than retargeted. -/
theorem c1_root_link_rewrite (input_root rootHref : String) (parent : ObjRef)
    (ty : String) (l : Link) (hrel : l.rel = "root") :
    (pyStartsWith l.hrefD input_root = true →
      processLink input_root (pyReplace rootHref "/catalog.json" "") parent ty l
        = some (Link.mk "root" (LinkTarget.obj ObjRef.root)))
    ∧ (pyStartsWith l.hrefD input_root = false →
      processLink input_root (pyReplace rootHref "/catalog.json" "") parent ty l = none) := by
  cases l with
  | mk r t =>
    have hr : r = "root" := hrel
    subst hr
    constructor
    · intro hs
      simp [processLink, hs, rewriteMatched]
    · intro hs
      simp [processLink, hs]

/-- Witness for claim C1 at a concrete root link under the source root. -/
theorem c1_root_link_rewrite_witness :
    (Link.mk "root" (LinkTarget.str "s:/r")).rel = "root"
    ∧ pyStartsWith (Link.mk "root" (LinkTarget.str "s:/r")).hrefD "s:" = true
    ∧ processLink "s:" (pyReplace "/catalog.json" "/catalog.json" "") ObjRef.root "Collection"
        (Link.mk "root" (LinkTarget.str "s:/r"))
      = some (Link.mk "root" (LinkTarget.obj ObjRef.root)) := by
  refine ⟨rfl, by decide, ?_⟩
  exact (c1_root_link_rewrite "s:" "/catalog.json" ObjRef.root "Collection"
    (Link.mk "root" (LinkTarget.str "s:/r")) rfl).1 (by decide)

/-- Claim C1 counterexample: a root link whose href does not begin with the
source-root prefix is dropped by update_links, not retargeted to the
destination root as the claim states. -/
theorem c1_counterexample :
    (update_links "s:" "/catalog.json" ObjRef.root rootCexNode).links = []
    ∧ ¬ (Link.mk "root" (LinkTarget.obj ObjRef.root)
        ∈ (update_links "s:" "/catalog.json" ObjRef.root rootCexNode).links) := by
  exact ⟨by decide, by decide⟩

/-- Claim C2, amended.  For a self link whose href is the source root
followed by a remainder, the rewritten href is the destination-root prefix
(the destination root catalog href with its /catalog.json tail removed)
followed by the remainder and the type suffix — provided the source root
does not occur as a substring of that rewritten string; without the proviso
the fall-through branch of the loop replaces further occurrences (see the
counterexample). -/
theorem c2_self_link_rewrite (input_root rootHref rest : String) (parent : ObjRef)
    (ty : String) (l : Link)
    (hrel : l.rel = "self")
    (htgt : l.target = LinkTarget.str (input_root ++ rest))
    (hne : input_root ≠ "")
    (hno : hasSubStr input_root
        (pyReplace rootHref "/catalog.json" "" ++ rest ++ sfxOf ty) = false) :
    processLink input_root (pyReplace rootHref "/catalog.json" "") parent ty l
      = some (Link.mk "self"
          (LinkTarget.str (pyReplace rootHref "/catalog.json" "" ++ rest ++ sfxOf ty))) := by
  cases l with
  | mk r t =>
    have hr : r = "self" := hrel
    have ht : t = LinkTarget.str (input_root ++ rest) := htgt
    subst hr
    subst ht
    have h1 : pyReplace (input_root ++ rest) input_root (pyReplace rootHref "/catalog.json" "")
        = pyReplace rootHref "/catalog.json" "" ++ rest :=
      pyReplace_prefix _ _ _ hne
        (hasSubStr_false_inner (pyReplace rootHref "/catalog.json" "") (sfxOf ty) hno)
    have h2 : pyReplace (pyReplace rootHref "/catalog.json" "" ++ rest ++ sfxOf ty)
        input_root (pyReplace rootHref "/catalog.json" "")
        = pyReplace rootHref "/catalog.json" "" ++ rest ++ sfxOf ty :=
      pyReplace_no_occ _ _ hne hno
    by_cases hty : ty = "Collection"
    · simp only [sfxOf, hty, if_true, if_pos] at h2 ⊢
      simp [processLink, pyStartsWith_append, rewriteMatched, Link.hrefD, hty, h1, h2]
    · simp only [sfxOf, hty, if_false] at h2 ⊢
      simp [processLink, pyStartsWith_append, rewriteMatched, Link.hrefD, hty, h1, h2]

/-- Witness for claim C2 at a concrete self link of an item node. -/
theorem c2_self_link_rewrite_witness :
    (Link.mk "self" (LinkTarget.str "s:/x")).rel = "self"
    ∧ (Link.mk "self" (LinkTarget.str "s:/x")).target = LinkTarget.str ("s:" ++ "/x")
    ∧ ("s:" : String) ≠ ""
    ∧ hasSubStr "s:" (pyReplace "d:/catalog.json" "/catalog.json" "" ++ "/x" ++ sfxOf "Feature") = false
    ∧ processLink "s:" (pyReplace "d:/catalog.json" "/catalog.json" "") ObjRef.root "Feature"
        (Link.mk "self" (LinkTarget.str "s:/x"))
      = some (Link.mk "self" (LinkTarget.str
          (pyReplace "d:/catalog.json" "/catalog.json" "" ++ "/x" ++ sfxOf "Feature"))) := by
  refine ⟨rfl, by decide, by decide, by decide, ?_⟩
  exact c2_self_link_rewrite "s:" "d:/catalog.json" "/x" ObjRef.root "Feature"
    (Link.mk "self" (LinkTarget.str "s:/x")) rfl (by decide) (by decide) (by decide)

/-- Claim C2 counterexample: with source root ab, destination root catalog
href a/catalog.json (destination prefix a) and item self href abbY, the
remainder is bY, so the claim predicts abY.json; the code produces aY.json,
because the fall-through branch replaces the occurrence of ab that the first
rewrite created across the prefix-remainder boundary. -/
theorem c2_counterexample :
    (update_links "ab" "a/catalog.json" ObjRef.root selfCexNode).links
      = [Link.mk "self" (LinkTarget.str "aY.json")]
    ∧ ("aY.json" : String) ≠ "a" ++ "bY" ++ ".json" := by
  exact ⟨by decide, by decide⟩

/-- Claim C3: update_links keeps exactly the links whose href starts with
the source-root prefix, in their original relative order, each rewritten by
the loop body; every non-matching link is absent from the output. -/
theorem c3_link_filtering (input_root rootHref : String) (parent : ObjRef)
    (node : StacNode) :
    (update_links input_root rootHref parent node).links
      = (node.links.filter (fun l => pyStartsWith l.hrefD input_root)).map
          (rewriteMatched input_root (pyReplace rootHref "/catalog.json" "") parent node.objType) := by
  rw [update_links_links]
  exact filterMap_ite _ _ _

/-! ### State of the static publish path -/

theorem postItems_state (input_root rootHref : String) (items : List StacNode) :
    ∀ s : HState, (∀ it ∈ items, it.objType ≠ "Collection") →
    postItems input_root rootHref s items =
      { s with
        itemCount := s.itemCount + items.length,
        written := s.written
          ++ items.map (fun it => update_links input_root rootHref s.parent (fromDict it)) } := by
  induction items with
  | nil =>
    intro s _
    simp [postItems]
  | cons it rest ih =>
    intro s h
    have hit : it.objType ≠ "Collection" := h it (List.mem_cons_self _ _)
    have hrest : ∀ x ∈ rest, x.objType ≠ "Collection" := fun x hx => h x (List.mem_cons_of_mem _ hx)
    show postItems input_root rootHref (post_static input_root rootHref s it) rest = _
    rw [ih _ hrest]
    cases s with
    | mk pa pu ch wr cc ic sv =>
      simp [post_static, hit, HState.mk.injEq, List.append_assoc]
      omega

theorem postGroup_state (input_root rootHref : String) (g : Group) (s : HState)
    (hc : g.coll.objType = "Collection")
    (hi : ∀ it ∈ g.items, it.objType ≠ "Collection") :
    postGroup input_root rootHref s g =
      { s with
        parent := ObjRef.pub s.pubs.length,
        pubs := s.pubs ++ [pubOf input_root rootHref g],
        children := s.children ++ [pubOf input_root rootHref g],
        collectionCount := s.collectionCount + 1,
        itemCount := s.itemCount + g.items.length,
        written := s.written ++ (pubOf input_root rootHref g ::
          g.items.map (fun it => update_links input_root rootHref (ObjRef.pub s.pubs.length) (fromDict it))) } := by
  unfold postGroup
  rw [postItems_state _ _ _ _ hi]
  cases s with
  | mk pa pu ch wr cc ic sv =>
    simp [post_static, hc, pubOf, HState.mk.injEq, List.append_assoc]

theorem runGroups_state (input_root rootHref : String) (gs : List Group) :
    ∀ s : HState,
    (∀ g ∈ gs, g.coll.objType = "Collection") →
    (∀ g ∈ gs, ∀ it ∈ g.items, it.objType ≠ "Collection") →
    (runGroups input_root rootHref s gs).pubs = s.pubs ++ gs.map (pubOf input_root rootHref)
    ∧ (runGroups input_root rootHref s gs).written
        = s.written ++ writtenFrom input_root rootHref s.pubs.length gs
    ∧ (runGroups input_root rootHref s gs).collectionCount = s.collectionCount + gs.length
    ∧ (runGroups input_root rootHref s gs).itemCount
        = s.itemCount + (gs.map (fun g => g.items.length)).sum := by
  induction gs with
  | nil =>
    intro s _ _
    simp [runGroups, writtenFrom]
  | cons g gs ih =>
    intro s hh hi
    have hc : g.coll.objType = "Collection" := hh g (List.mem_cons_self _ _)
    have hgi : ∀ it ∈ g.items, it.objType ≠ "Collection" := hi g (List.mem_cons_self _ _)
    have hh2 : ∀ x ∈ gs, x.coll.objType = "Collection" := fun x hx => hh x (List.mem_cons_of_mem _ hx)
    have hi2 : ∀ x ∈ gs, ∀ it ∈ x.items, it.objType ≠ "Collection" :=
      fun x hx => hi x (List.mem_cons_of_mem _ hx)
    obtain ⟨e1, e2, e3, e4⟩ := ih (postGroup input_root rootHref s g) hh2 hi2
    simp only [runGroups]
    rw [e1, e2, e3, e4, postGroup_state input_root rootHref g s hc hgi]
    refine ⟨?_, ?_, ?_, ?_⟩
    · simp [List.append_assoc]
    · simp only [writtenFrom]
      simp [List.append_assoc]
    · simp
      omega
    · simp
      omega

theorem update_links_objType (input_root rootHref : String) (parent : ObjRef)
    (n : StacNode) : (update_links input_root rootHref parent n).objType = n.objType := rfl

theorem set_root_objType (n : StacNode) : (set_root n).objType = n.objType := rfl

theorem fromDict_objType (n : StacNode) : (fromDict n).objType = n.objType := rfl

theorem pubOf_objType (input_root rootHref : String) (g : Group) :
    (pubOf input_root rootHref g).objType = g.coll.objType := rfl

theorem writtenFrom_mem (input_root rootHref : String) :
    ∀ (gs : List Group) (n j : Nat) (hj : j < gs.length),
    pubOf input_root rootHref (gs.get ⟨j, hj⟩) ∈ writtenFrom input_root rootHref n gs
    ∧ ∀ it ∈ (gs.get ⟨j, hj⟩).items,
        update_links input_root rootHref (ObjRef.pub (n + j)) (fromDict it)
          ∈ writtenFrom input_root rootHref n gs := by
  intro gs
  induction gs with
  | nil =>
    intro n j hj
    exact absurd hj (by simp)
  | cons g gs ih =>
    intro n j hj
    cases j with
    | zero =>
      constructor
      · simp [writtenFrom]
      · intro it hit
        simp only [writtenFrom, Nat.add_zero, List.mem_append, List.mem_cons]
        exact Or.inl (Or.inr (List.mem_map_of_mem _ hit))
    | succ j2 =>
      have hj2 : j2 < gs.length := by simpa using hj
      obtain ⟨m1, m2⟩ := ih (n + 1) j2 hj2
      constructor
      · simp only [writtenFrom, List.mem_append]
        exact Or.inr m1
      · intro it hit
        have heq : n + (j2 + 1) = (n + 1) + j2 := by omega
        rw [heq]
        simp only [writtenFrom, List.mem_append]
        exact Or.inr (m2 it hit)

theorem runGroups_pubs_get (input_root rootHref : String) (gs : List Group) (j : Nat)
    (hj : j < gs.length)
    (hheads : ∀ g ∈ gs, g.coll.objType = "Collection")
    (hitems : ∀ g ∈ gs, ∀ it ∈ g.items, it.objType ≠ "Collection") :
    (runGroups input_root rootHref initStatic gs).pubs[j]?
      = some (pubOf input_root rootHref (gs.get ⟨j, hj⟩)) := by
  obtain ⟨e1, _, _, _⟩ := runGroups_state input_root rootHref gs initStatic hheads hitems
  rw [e1]
  simp only [initStatic, List.nil_append]
  rw [List.getElem?_map, List.getElem?_eq_getElem hj]
  simp [List.get_eq_getElem]

/-! ### Claims about the static pipeline -/

/-- Claim C4: under a static destination, when a Collection is published
before its Items, each subsequent Item is rewritten against the parent
reference ObjRef.pub j, the j-th published collection, which is exactly the
just-published rewrite of the group head; the item's rewritten form is
written, and all its parent and collection links target that collection
object, not the original source parent. -/
theorem c4_parent_propagation (input_root rootHref : String) (gs : List Group) (j : Nat)
    (hj : j < gs.length)
    (hheads : ∀ g ∈ gs, g.coll.objType = "Collection")
    (hitems : ∀ g ∈ gs, ∀ it ∈ g.items, it.objType ≠ "Collection") :
    (runGroups input_root rootHref initStatic gs).pubs[j]?
        = some (pubOf input_root rootHref (gs.get ⟨j, hj⟩))
    ∧ ∀ it ∈ (gs.get ⟨j, hj⟩).items,
        update_links input_root rootHref (ObjRef.pub j) (fromDict it)
            ∈ (runGroups input_root rootHref initStatic gs).written
        ∧ ∀ l ∈ (update_links input_root rootHref (ObjRef.pub j) (fromDict it)).links,
            (l.rel = "parent" ∨ l.rel = "collection") →
              l.target = LinkTarget.obj (ObjRef.pub j) := by
  obtain ⟨_, e2, _, _⟩ := runGroups_state input_root rootHref gs initStatic hheads hitems
  refine ⟨runGroups_pubs_get input_root rootHref gs j hj hheads hitems, ?_⟩
  intro it hit
  obtain ⟨_, m2⟩ := writtenFrom_mem input_root rootHref gs 0 j hj
  constructor
  · rw [e2]
    simp only [initStatic, List.nil_append]
    have := m2 it hit
    rwa [Nat.zero_add] at this
  · exact fun l hl => update_links_parent_target input_root rootHref (ObjRef.pub j) (fromDict it) l hl

/-- Witness for claim C4 at a one-group source. -/
theorem c4_parent_propagation_witness :
    (0 < gs0.length)
    ∧ (∀ g ∈ gs0, g.coll.objType = "Collection")
    ∧ (∀ g ∈ gs0, ∀ it ∈ g.items, it.objType ≠ "Collection")
    ∧ ((runGroups "s:" "/catalog.json" initStatic gs0).pubs[0]?
          = some (pubOf "s:" "/catalog.json" g0)
        ∧ ∀ it ∈ g0.items,
            update_links "s:" "/catalog.json" (ObjRef.pub 0) (fromDict it)
                ∈ (runGroups "s:" "/catalog.json" initStatic gs0).written
            ∧ ∀ l ∈ (update_links "s:" "/catalog.json" (ObjRef.pub 0) (fromDict it)).links,
                (l.rel = "parent" ∨ l.rel = "collection") →
                  l.target = LinkTarget.obj (ObjRef.pub 0)) := by
  refine ⟨by decide, by decide, by decide, ?_⟩
  exact c4_parent_propagation "s:" "/catalog.json" gs0 0 (by decide) (by decide) (by decide)

/-- Claim C10: the API reader resets self.parent to the destination catalog
root immediately before yielding each Collection, so the published form of
every Collection has its parent and collection links targeting the
destination root object — never the previously published Collection. -/
theorem c10_reader_resets_parent (input_root rootHref : String) (gs : List Group) (j : Nat)
    (hj : j < gs.length)
    (hheads : ∀ g ∈ gs, g.coll.objType = "Collection")
    (hitems : ∀ g ∈ gs, ∀ it ∈ g.items, it.objType ≠ "Collection") :
    (runGroups input_root rootHref initStatic gs).pubs[j]?
        = some (pubOf input_root rootHref (gs.get ⟨j, hj⟩))
    ∧ ∀ l ∈ (pubOf input_root rootHref (gs.get ⟨j, hj⟩)).links,
        (l.rel = "parent" ∨ l.rel = "collection") → l.target = LinkTarget.obj ObjRef.root := by
  refine ⟨runGroups_pubs_get input_root rootHref gs j hj hheads hitems, ?_⟩
  intro l hl hrel
  unfold pubOf set_root at hl
  rcases List.mem_append.mp hl with h | h
  · exact update_links_parent_target input_root rootHref ObjRef.root
      (fromDict (gs.get ⟨j, hj⟩).coll) l (List.mem_of_mem_filter h) hrel
  · have hle : l = Link.mk "root" (LinkTarget.obj ObjRef.root) := by simpa using h
    rcases hrel with hr | hr <;> rw [hle] at hr <;> exact absurd hr (by decide)

/-- Witness for claim C10 at a one-group source. -/
theorem c10_reader_resets_parent_witness :
    (0 < gs0.length)
    ∧ (∀ g ∈ gs0, g.coll.objType = "Collection")
    ∧ (∀ g ∈ gs0, ∀ it ∈ g.items, it.objType ≠ "Collection")
    ∧ ((runGroups "s:" "/catalog.json" initStatic gs0).pubs[0]?
          = some (pubOf "s:" "/catalog.json" g0)
        ∧ ∀ l ∈ (pubOf "s:" "/catalog.json" g0).links,
            (l.rel = "parent" ∨ l.rel = "collection") →
              l.target = LinkTarget.obj ObjRef.root) := by
  refine ⟨by decide, by decide, by decide, ?_⟩
  exact c10_reader_resets_parent "s:" "/catalog.json" gs0 0 (by decide) (by decide) (by decide)

/-- Claim C6, amended.  For the static output kind, run applies the link
rewriter to each node the reader yields and then writes the result, in
source order: the write log is exactly the per-node rewrites.  For the API
output kind the rewriter is never applied (see the counterexample). -/
theorem c6_rewrite_then_publish (input_root rootHref dur : String) (gs : List Group)
    (hheads : ∀ g ∈ gs, g.coll.objType = "Collection")
    (hitems : ∀ g ∈ gs, ∀ it ∈ g.items, it.objType ≠ "Collection") :
    (run_static input_root rootHref gs dur).1.written = writtenFrom input_root rootHref 0 gs := by
  obtain ⟨_, e2, _, _⟩ := runGroups_state input_root rootHref gs initStatic hheads hitems
  simpa [run_static, initStatic] using e2

/-- Witness for claim C6 at a one-group source. -/
theorem c6_rewrite_then_publish_witness :
    (∀ g ∈ gs0, g.coll.objType = "Collection")
    ∧ (∀ g ∈ gs0, ∀ it ∈ g.items, it.objType ≠ "Collection")
    ∧ (run_static "s:" "/catalog.json" gs0 "t").1.written = writtenFrom "s:" "/catalog.json" 0 gs0 := by
  refine ⟨by decide, by decide, ?_⟩
  exact c6_rewrite_then_publish "s:" "/catalog.json" "t" gs0 (by decide) (by decide)

/-- Claim C6 counterexample: for the API output kind, run hands the raw node
to post_api, which raises before any rewrite or publish — even though the
rewriter would have changed the node. -/
theorem c6_counterexample :
    run_api apiWorld0 "t" apiInit [linkNodeB]
      = Except.error (PyError.typeError "'Collection' object is not subscriptable")
    ∧ update_links "s:" "/catalog.json" ObjRef.root linkNodeB ≠ linkNodeB := by
  exact ⟨rfl, by decide⟩

theorem writtenFrom_counts (input_root rootHref : String) (gs : List Group)
    (hheads : ∀ g ∈ gs, g.coll.objType = "Collection")
    (hitems : ∀ g ∈ gs, ∀ it ∈ g.items, it.objType ≠ "Collection") :
    ∀ n : Nat,
    ((writtenFrom input_root rootHref n gs).filter (fun m => m.objType == "Collection")).length
        = gs.length
    ∧ ((writtenFrom input_root rootHref n gs).filter (fun m => !(m.objType == "Collection"))).length
        = (gs.map (fun g => g.items.length)).sum := by
  induction gs with
  | nil =>
    intro n
    simp [writtenFrom]
  | cons g gs ih =>
    intro n
    have hc : g.coll.objType = "Collection" := hheads g (List.mem_cons_self _ _)
    have hgi : ∀ it ∈ g.items, it.objType ≠ "Collection" := hitems g (List.mem_cons_self _ _)
    have hh2 : ∀ x ∈ gs, x.coll.objType = "Collection" := fun x hx => hheads x (List.mem_cons_of_mem _ hx)
    have hi2 : ∀ x ∈ gs, ∀ it ∈ x.items, it.objType ≠ "Collection" :=
      fun x hx => hitems x (List.mem_cons_of_mem _ hx)
    obtain ⟨k1, k2⟩ := ih hh2 hi2 (n + 1)
    have hmap1 : ((g.items.map (fun it => update_links input_root rootHref (ObjRef.pub n) (fromDict it))).filter
        (fun m => m.objType == "Collection")) = [] := by
      refine List.filter_eq_nil_iff.mpr ?_
      intro a ha
      rcases List.mem_map.mp ha with ⟨it, hit, rfl⟩
      simp [update_links_objType, fromDict_objType, hgi it hit]
    have hmap2 : ((g.items.map (fun it => update_links input_root rootHref (ObjRef.pub n) (fromDict it))).filter
        (fun m => !(m.objType == "Collection")))
        = g.items.map (fun it => update_links input_root rootHref (ObjRef.pub n) (fromDict it)) := by
      refine List.filter_eq_self.mpr ?_
      intro a ha
      rcases List.mem_map.mp ha with ⟨it, hit, rfl⟩
      simp [update_links_objType, fromDict_objType, hgi it hit]
    constructor
    · simp only [writtenFrom, List.filter_append, List.length_append, k1, List.filter_cons,
        pubOf_objType, hc, hmap1]
      simp
      omega
    · simp only [writtenFrom, List.filter_append, List.length_append, k2, List.filter_cons,
        pubOf_objType, hc, hmap2]
      simp [Nat.add_comm]

/-- Claim C8, amended.  For the static destination kind, after the source is
exhausted run produces exactly one summary line of the stated shape, and the
two counters it renders equal the number of written Collections and the
number of written non-Collections.  For the API destination kind the
counters are never incremented and the publish path raises before the
summary (see the counterexample). -/
theorem c8_summary_line (input_root rootHref dur : String) (gs : List Group)
    (hheads : ∀ g ∈ gs, g.coll.objType = "Collection")
    (hitems : ∀ g ∈ gs, ∀ it ∈ g.items, it.objType ≠ "Collection") :
    (run_static input_root rootHref gs dur).1.collectionCount
        = (((run_static input_root rootHref gs dur).1.written).filter
            (fun m => m.objType == "Collection")).length
    ∧ (run_static input_root rootHref gs dur).1.itemCount
        = (((run_static input_root rootHref gs dur).1.written).filter
            (fun m => !(m.objType == "Collection"))).length
    ∧ (run_static input_root rootHref gs dur).2
        = "Harvested " ++ toString (run_static input_root rootHref gs dur).1.collectionCount
          ++ " Collections and " ++ toString (run_static input_root rootHref gs dur).1.itemCount
          ++ " Items in " ++ dur := by
  obtain ⟨_, e2, e3, e4⟩ := runGroups_state input_root rootHref gs initStatic hheads hitems
  obtain ⟨k1, k2⟩ := writtenFrom_counts input_root rootHref gs hheads hitems 0
  refine ⟨?_, ?_, rfl⟩
  · simp only [run_static]
    simp only [e2, e3]
    simp [initStatic, k1]
  · simp only [run_static]
    simp only [e2, e4]
    simp [initStatic, k2]

/-- Witness for claim C8 at a one-group source. -/
theorem c8_summary_line_witness :
    (∀ g ∈ gs0, g.coll.objType = "Collection")
    ∧ (∀ g ∈ gs0, ∀ it ∈ g.items, it.objType ≠ "Collection")
    ∧ ((run_static "s:" "/catalog.json" gs0 "t").1.collectionCount
          = (((run_static "s:" "/catalog.json" gs0 "t").1.written).filter
              (fun m => m.objType == "Collection")).length
        ∧ (run_static "s:" "/catalog.json" gs0 "t").1.itemCount
          = (((run_static "s:" "/catalog.json" gs0 "t").1.written).filter
              (fun m => !(m.objType == "Collection"))).length
        ∧ (run_static "s:" "/catalog.json" gs0 "t").2
          = "Harvested " ++ toString (run_static "s:" "/catalog.json" gs0 "t").1.collectionCount
            ++ " Collections and " ++ toString (run_static "s:" "/catalog.json" gs0 "t").1.itemCount
            ++ " Items in " ++ "t") := by
  refine ⟨by decide, by decide, ?_⟩
  exact c8_summary_line "s:" "/catalog.json" "t" gs0 (by decide) (by decide)

/-- Claim C8 counterexample: for an API destination, publishing one
collection never reaches the summary — the run aborts with a TypeError, so
no summary line is printed at all (and the counters, which only post_static
increments, would still be zero). -/
theorem c8_counterexample :
    run_api apiWorld0 "t" apiInit [collectionNodeA]
      = Except.error (PyError.typeError "'Collection' object is not subscriptable")
    ∧ (run_api apiWorld0 "t" apiInit [collectionNodeA]).toOption = none := by
  exact ⟨rfl, rfl⟩

/-! ### Claims about the API publish path -/

/-- Claim C5: the create-then-update protocol of post_api_colletion is dead
code — its first step passes the catalog handle object (not a URL string) as
the base of urljoin, which raises TypeError for every payload and every HTTP
oracle, so no POST is ever issued, no 409 can be observed, and no stored
object can converge to the second payload. -/
theorem c5_upsert_never_issues_requests :
    ∀ (w : ApiWorld) (hv : ApiHarvester) (stac_obj : StacNode),
      post_api_colletion w hv stac_obj
        = Except.error (PyError.typeError "Cannot mix str and non-str arguments") := by
  intro w hv stac_obj
  cases hv with
  | mk oc orr =>
    cases oc
    rfl

/-- Claim C7: a failed destination write cannot be reached, let alone
survived — for every HTTP oracle (hence every response status) the API run
aborts on the first node with a TypeError before issuing any request, never
continuing to later nodes and never printing a summary. -/
theorem c7_failure_handling_unreachable :
    ∀ (w : ApiWorld) (dur : String) (src : List StacNode),
      run_api w dur apiInit (collectionNodeA :: src)
        = Except.error (PyError.typeError "'Collection' object is not subscriptable") := by
  intro w dur src
  rfl

/-- Claim C9: post_api_item reads self.output_root, which no operation of
the class assigns, so for every instance, payload and world the call raises
AttributeError before any HTTP request is issued. -/
theorem c9_item_upsert_unreachable :
    ∀ (w : ApiWorld) (hv : ApiHarvester) (stac_obj : StacNode),
      post_api_item w hv stac_obj
        = Except.error (PyError.attributeError "'Harvester' object has no attribute 'output_root'") := by
  intro w hv stac_obj
  cases hv with
  | mk oc orr =>
    cases orr with
    | none => rfl
    | some e => exact e.elim

end StacHarvester
